import Mathlib

/-!
# Falcor render passes: `SceneRenderPass`

A shallow embedding of `Framework/Source/RenderPasses/SceneRenderPass.cpp`.

* Shared pointers are `Option` values (`none` is `nullptr`). The pointer to the FBO that the
  graphics state holds is kept as a reference to the FBO of the pass, not as a copy.
* Member functions take the pass state and return the new one; a function that
  dereferences a pointer returns `none` when that pointer is null.
* `logError` calls are returned as the list of messages handed to the logger.
* The render context is the list of commands submitted to it, oldest first.

The classes `Fbo`, `Texture`, `GraphicsState`, `DepthStencilState`, `SceneRenderer`
and the enums they use are declared in headers that are not part of
the sources; they are modelled below and each such definition says so.
-/

namespace Falcor

/-! ## Collaborating types -/

/-- Modelled from the spec: the values of `ResourceFormat` named by the pass
(`Unknown` means "inherit from bound resource"); the enum itself is declared in an absent header. -/
inductive ResourceFormat where
  | Unknown
  | RGBA8Unorm
  | RGBA32Float
  | D32Float
  deriving DecidableEq, Repr

/-- Modelled from the spec: the bind-usage values of `Resource::BindFlags`
(render-target, depth-stencil, shader-read, ...); the enum is declared in an absent header. -/
inductive BindFlags where
  | None
  | ShaderResource
  | UnorderedAccess
  | RenderTarget
  | DepthStencil
  deriving DecidableEq, Repr

/-- Modelled from the spec: the dimension of a resource; `Texture::create2D` makes a `Texture2D`. -/
inductive ResourceType where
  | Buffer
  | Texture1D
  | Texture2D
  | Texture3D
  | TextureCube
  deriving DecidableEq, Repr

/-- Modelled from the spec: a texture handle with "format, dimension, and bind-usage
metadata"; class `Texture` is declared in an absent header. -/
structure Texture where
  type : ResourceType
  width : Nat
  height : Nat
  format : ResourceFormat
  arraySize : Nat
  mipLevels : Nat
  bindFlags : BindFlags
  deriving DecidableEq, Repr

/-- Modelled from the spec: a non-texture resource (a buffer of `size` bytes). -/
structure Buffer where
  size : Nat
  bindFlags : BindFlags
  deriving DecidableEq, Repr

/-- Modelled from the spec: class `Resource` with its two kinds of
subclass, images and buffers. -/
inductive Resource where
  | texture (t : Texture)
  | buffer (b : Buffer)
  deriving DecidableEq, Repr

/-- The `std::dynamic_pointer_cast<Texture>(pResource)` of a `std::shared_ptr<Resource>`:
the texture when the pointer is non-null and points to a texture, null otherwise. -/
def dynamic_pointer_cast_Texture : Option Resource → Option Texture
  | some (Resource.texture t) => some t
  | some (Resource.buffer _) => none
  | none => none

/-- Modelled from the spec: `Texture::create2D(width, height, format, arraySize, mipLevels,
pData, bindFlags)`, which allocates a 2D texture with the given metadata (the initial
data pointer is always `nullptr` here and is left out). -/
def Texture.create2D (width height : Nat) (format : ResourceFormat) (arraySize mipLevels : Nat)
    (bindFlags : BindFlags) : Texture :=
  { type := ResourceType.Texture2D, width := width, height := height, format := format,
    arraySize := arraySize, mipLevels := mipLevels, bindFlags := bindFlags }

/-- Modelled from the spec: the flag enum `FboAttachmentType`, one boolean per flag. -/
structure FboAttachmentType where
  color : Bool
  depth : Bool
  stencil : Bool
  deriving DecidableEq, Repr

namespace FboAttachmentType

/-- The flag `FboAttachmentType::Color`. -/
def Color : FboAttachmentType := ⟨true, false, false⟩

/-- The flag `FboAttachmentType::Depth`. -/
def Depth : FboAttachmentType := ⟨false, true, false⟩

/-- The `operator|` of the flag enum. -/
def or (a b : FboAttachmentType) : FboAttachmentType :=
  ⟨a.color || b.color, a.depth || b.depth, a.stencil || b.stencil⟩

end FboAttachmentType

/-- Modelled from the spec: the "color+depth render target set". Colour attachments are
indexed by render-target index. Class `Fbo` is declared in an absent header. -/
structure Fbo where
  mColorAttachments : Nat → Option Texture
  mDepthStencil : Option Texture

namespace Fbo

/-- Modelled from the spec: `Fbo::create()`, an FBO with nothing attached. -/
def create : Fbo := ⟨fun _ => none, none⟩

/-- Modelled from the spec: `Fbo::getColorTexture(index)`. -/
def getColorTexture (f : Fbo) (index : Nat) : Option Texture := f.mColorAttachments index

/-- Modelled from the spec: `Fbo::getDepthStencilTexture()`. -/
def getDepthStencilTexture (f : Fbo) : Option Texture := f.mDepthStencil

/-- Modelled from the spec: `Fbo::attachColorTarget(pTexture, rtIndex)` binds the slot
`rtIndex` and no other. -/
def attachColorTarget (f : Fbo) (pTexture : Option Texture) (rtIndex : Nat) : Fbo :=
  { f with mColorAttachments := fun i => if i = rtIndex then pTexture else f.mColorAttachments i }

/-- Modelled from the spec: `Fbo::attachDepthStencilTarget(pDepth)`. -/
def attachDepthStencilTarget (f : Fbo) (pDepth : Option Texture) : Fbo :=
  { f with mDepthStencil := pDepth }

/-- Modelled from the spec: `Fbo::getWidth()`. §4.6 has the auto-allocated depth target
match "the color target's dimensions": the width of colour target 0, and 0 without one. -/
def getWidth (f : Fbo) : Nat :=
  match f.getColorTexture 0 with
  | some t => t.width
  | none => 0

/-- Modelled from the spec: `Fbo::getHeight()`, as `getWidth`. -/
def getHeight (f : Fbo) : Nat :=
  match f.getColorTexture 0 with
  | some t => t.height
  | none => 0

/-- Modelled from the spec: `Fbo::checkStatus()`. §4.6: "the attached targets have
matching dimensions"; the check passes unless a colour target 0 and a depth target
are both attached and differ in width or height. -/
def checkStatus (f : Fbo) : Bool :=
  match f.getColorTexture 0, f.getDepthStencilTexture with
  | some c, some d => c.width == d.width && c.height == d.height
  | _, _ => true

end Fbo

/-- Modelled from the spec: `DepthStencilState::Func`, the depth comparison. -/
inductive DepthFunc where
  | Never
  | Always
  | Less
  | Equal
  | NotEqual
  | LessEqual
  | Greater
  | GreaterEqual
  deriving DecidableEq, Repr

/-- Modelled from the spec: what `DepthStencilState::Desc` records through the setters
the constructor calls. -/
structure DepthStencilState where
  depthTest : Bool
  depthWriteMask : Bool
  stencilTest : Bool
  depthFunc : DepthFunc
  deriving DecidableEq, Repr

/-- Modelled from the spec: a loaded `GraphicsProgram`: the file and entry points it
was created from. -/
structure GraphicsProgram where
  file : String
  vs : String
  ps : String
  deriving DecidableEq, Repr

/-- Modelled from the spec: `GraphicsVars`, created from the reflector of a program. -/
structure GraphicsVars where
  reflector : GraphicsProgram
  deriving DecidableEq, Repr

/-- The FBO object a `Fbo::SharedPtr` held outside the pass points to. The pass creates one
FBO (constructor, line 75) and hands no other to `GraphicsState::setFbo` (line 175). A holder
keeps the pointer and not a copy of the FBO, so what is attached through `mpFbo` later is
seen through every holder. -/
inductive FboRef where
  | passFbo
  deriving DecidableEq, Repr

/-- Modelled from the spec: the part of `GraphicsState` the pass sets: program,
depth-stencil state (null selects the default state) and the shared pointer to the FBO. -/
structure GraphicsState where
  program : Option GraphicsProgram
  depthStencilState : Option DepthStencilState
  fbo : Option FboRef

namespace GraphicsState

/-- Modelled from the spec: `GraphicsState::create()`. -/
def create : GraphicsState := ⟨none, none, none⟩

/-- Modelled from the spec: `GraphicsState::setProgram`. -/
def setProgram (g : GraphicsState) (p : GraphicsProgram) : GraphicsState :=
  { g with program := some p }

/-- Modelled from the spec: `GraphicsState::setDepthStencilState`. -/
def setDepthStencilState (g : GraphicsState) (ds : Option DepthStencilState) : GraphicsState :=
  { g with depthStencilState := ds }

/-- Modelled from the spec: `GraphicsState::setFbo`, which stores the shared pointer. -/
def setFbo (g : GraphicsState) (f : Option FboRef) : GraphicsState :=
  { g with fbo := f }

end GraphicsState

/-- Modelled from the spec: a scene, known by its name only ("scene-graph
representation" is out of scope). -/
structure Scene where
  name : String
  deriving DecidableEq, Repr

/-- Modelled from the spec: "an internal scene renderer bound to the new scene". -/
structure SceneRenderer where
  scene : Scene
  deriving DecidableEq, Repr

/-- Modelled from the spec: `SceneRenderer::create(pScene)` "(re)builds an internal scene
renderer bound to the new scene". -/
def SceneRenderer.create (pScene : Scene) : Option SceneRenderer := some ⟨pScene⟩

/-- A `glm::vec4`; the pass stores and forwards the clear colour and computes nothing with it. -/
structure vec4 where
  x : ℚ
  y : ℚ
  z : ℚ
  w : ℚ
  deriving DecidableEq

/-- The calls `execute` makes on the `RenderContext`, with their arguments as they are at
the call; `pushGraphicsState` also records the FBO that the pointer of the state leads to. -/
inductive Command where
  | clearFbo (pFbo : Fbo) (color : vec4) (depth : Nat) (stencil : Nat) (flags : FboAttachmentType)
  | pushGraphicsState (pState : GraphicsState) (pFbo : Option Fbo)
  | pushGraphicsVars (pVars : GraphicsVars)
  | renderScene (renderer : SceneRenderer)
  | popGraphicsState
  | popGraphicsVars

/-- The render context: the commands submitted so far, in submission order. -/
abbrev RenderContext := List Command

/-- Whether a command is the FBO clear. -/
def Command.isClear : Command → Bool
  | Command.clearFbo _ _ _ _ _ => true
  | _ => false

/-- Whether a command is the scene draw. -/
def Command.isDraw : Command → Bool
  | Command.renderScene _ => true
  | _ => false

/-- Whether a command pushes or pops graphics state or graphics vars. -/
def Command.isPushPop : Command → Bool
  | Command.pushGraphicsState _ _ => true
  | Command.pushGraphicsVars _ => true
  | Command.popGraphicsState => true
  | Command.popGraphicsVars => true
  | _ => false

/-! ## The static I/O contract -/

/-- The slot name `kColor`. -/
def kColor : String := "color"

/-- The slot name `kDepth`. -/
def kDepth : String := "depth"

/-- The arguments of the `ReflectionResourceType::create` call, kept as the strings
of the enumerators passed. -/
structure ReflectionResourceType where
  type : String
  dimensions : String
  structuredType : String
  returnType : String
  shaderAccess : String
  deriving DecidableEq, Repr

/-- The members of `RenderPass::PassData::Field` that `createRenderPassData` assigns. -/
structure Field where
  name : String
  pType : Option ReflectionResourceType
  required : Bool
  format : ResourceFormat
  bindFlags : BindFlags
  deriving DecidableEq, Repr

/-- A `RenderPass::PassData`: the declared inputs and outputs. -/
structure PassData where
  inputs : List Field
  outputs : List Field
  deriving DecidableEq, Repr

/-- The function `createRenderPassData`. The struct `Field` is declared in an absent
header, so the default-constructed field `init` is a parameter. -/
def createRenderPassData (init : Field) : PassData :=
  let data : PassData := ⟨[], []⟩
  let color : Field := init
  let color := { color with bindFlags := BindFlags.RenderTarget }
  let color := { color with name := kColor }
  let color := { color with pType := some ⟨"Texture", "Texture2D", "Invalid", "Unknown", "Read"⟩ }
  let data := { data with outputs := data.outputs ++ [color] }
  let depth : Field := init
  let depth := { depth with name := kDepth }
  let depth := { depth with required := false }
  let depth := { depth with format := ResourceFormat.Unknown }
  let depth := { depth with bindFlags := BindFlags.DepthStencil }
  let data := { data with inputs := data.inputs ++ [depth] }
  data

/-! ## The pass -/

/-- The data members of `SceneRenderPass` (with `mpScene` of the base class `RenderPass`). -/
structure SceneRenderPass where
  mpScene : Option Scene
  mpSceneRenderer : Option SceneRenderer
  mpState : GraphicsState
  mpVars : GraphicsVars
  mpFbo : Option Fbo
  mpDsNoDepthWrite : DepthStencilState
  mClearFlags : FboAttachmentType
  mClearColor : vec4

/-- The result of a bind call: the value returned, the pass afterwards and the messages
handed to `logError`. -/
structure BindResult where
  ret : Bool
  pass : SceneRenderPass
  logged : List String

namespace SceneRenderPass

/-- The shared pointer `mpFbo` as handed to another holder: null when `mpFbo` is null. -/
def fboRef (s : SceneRenderPass) : Option FboRef :=
  s.mpFbo.map (fun _ => FboRef.passFbo)

/-- The FBO seen through `mpState`: the object its pointer leads to, which is the one
`mpFbo` points to. -/
def stateFbo (s : SceneRenderPass) : Option Fbo :=
  match s.mpState.fbo with
  | some FboRef.passFbo => s.mpFbo
  | none => none

/-- The constructor `SceneRenderPass::SceneRenderPass()`, given the program that
`GraphicsProgram::createFromFile` loaded. The in-class initialisers of `mClearFlags` and
`mClearColor` are in the absent header and are parameters. -/
def ctor (pProgram : GraphicsProgram) (clearFlags : FboAttachmentType) (clearColor : vec4) :
    SceneRenderPass :=
  let mpState := GraphicsState.create
  let mpState := mpState.setProgram pProgram
  let mpVars : GraphicsVars := ⟨pProgram⟩
  let mpFbo := Fbo.create
  let dsDesc : DepthStencilState :=
    { depthTest := true, depthWriteMask := false, stencilTest := false,
      depthFunc := DepthFunc.LessEqual }
  { mpScene := none, mpSceneRenderer := none, mpState := mpState, mpVars := mpVars,
    mpFbo := some mpFbo, mpDsNoDepthWrite := dsDesc, mClearFlags := clearFlags,
    mClearColor := clearColor }

/-- The member function `SceneRenderPass::sceneChangedCB`. -/
def sceneChangedCB (s : SceneRenderPass) : SceneRenderPass :=
  let s := { s with mpSceneRenderer := none }
  match s.mpScene with
  | some scene => { s with mpSceneRenderer := SceneRenderer.create scene }
  | none => s

/-- The message `isValid` appends when there is no scene renderer. -/
def msgNoScene : String := "SceneRenderPass must have a scene attached to it\n"

/-- The message `isValid` appends when colour target 0 is null. -/
def msgNoColor : String := "SceneRenderPass must have a color texture attached\n"

/-- The message `isValid` appends when the FBO status check fails. -/
def msgBadFbo : String :=
  "SceneRenderPass FBO is invalid, probably because the depth and color textures have different dimensions"

/-- The member function `SceneRenderPass::isValid(log)`: the value returned and the log
afterwards; `none` when `mpFbo` is null (it is dereferenced unguarded). -/
def isValid (s : SceneRenderPass) (log : String) : Option (Bool × String) :=
  let b := true
  let (b, log) := if s.mpSceneRenderer.isNone then (false, log ++ msgNoScene) else (b, log)
  match s.mpFbo with
  | none => none
  | some fbo =>
    let pColor := fbo.getColorTexture 0
    let (b, log) := if pColor.isNone then (false, log ++ msgNoColor) else (b, log)
    let (b, log) := if fbo.checkStatus == false then (false, log ++ msgBadFbo) else (b, log)
    some (b, log)

/-- The message `setInput` logs for an unknown name. -/
def msgSetInput (name : String) : String :=
  "SceneRenderPass::setInput() - trying to set `" ++ name ++ "` which doesn't exist in this render-pass"

/-- The message `setOutput` logs for an unknown name. -/
def msgSetOutput (name : String) : String :=
  "SceneRenderPass::setOutput() - trying to set `" ++ name ++ "` which doesn't exist in this render-pass"

/-- The message `setOutput` logs when there is no FBO. -/
def msgNoFbo : String :=
  "SceneRenderPass::setOutput() - please call onResizeSwapChain() before setting an input"

/-- The member function `SceneRenderPass::setInput(name, pResource)`; `none` when the
"depth" branch dereferences a null `mpFbo`. Both paths end in `return false`. -/
def setInput (s : SceneRenderPass) (name : String) (pResource : Option Resource) :
    Option BindResult :=
  if name = kDepth then
    let pDepth := dynamic_pointer_cast_Texture pResource
    match s.mpFbo with
    | none => none
    | some fbo =>
      let s := { s with mpFbo := some (fbo.attachDepthStencilTarget pDepth) }
      let s :=
        if pDepth.isSome then
          { s with mpState := s.mpState.setDepthStencilState (some s.mpDsNoDepthWrite),
                   mClearFlags := FboAttachmentType.Color }
        else
          { s with mpState := s.mpState.setDepthStencilState none,
                   mClearFlags := FboAttachmentType.or FboAttachmentType.Color FboAttachmentType.Depth }
      some ⟨false, s, []⟩
  else
    some ⟨false, s, [msgSetInput name]⟩

/-- The member function `SceneRenderPass::setOutput(name, pResource)`. -/
def setOutput (s : SceneRenderPass) (name : String) (pResource : Option Resource) : BindResult :=
  match s.mpFbo with
  | none => ⟨false, s, [msgNoFbo]⟩
  | some fbo =>
    if name = kColor then
      let pColor := dynamic_pointer_cast_Texture pResource
      let s := { s with mpFbo := some (fbo.attachColorTarget pColor 0) }
      ⟨true, s, []⟩
    else
      ⟨false, s, [msgSetOutput name]⟩

/-- The member function `SceneRenderPass::execute(pContext)`: the pass and the context
afterwards; `none` when `mpFbo` is null. -/
def execute (s : SceneRenderPass) (pContext : RenderContext) :
    Option (SceneRenderPass × RenderContext) :=
  match s.mpFbo with
  | none => none
  | some fbo =>
    let fbo :=
      if fbo.getDepthStencilTexture.isNone then
        let pDepth := Texture.create2D fbo.getWidth fbo.getHeight ResourceFormat.D32Float 1 1
          BindFlags.DepthStencil
        fbo.attachDepthStencilTarget (some pDepth)
      else fbo
    let s := { s with mpFbo := some fbo }
    let pContext := pContext ++ [Command.clearFbo fbo s.mClearColor 1 0 s.mClearFlags]
    match s.mpSceneRenderer with
    | some renderer =>
      let s := { s with mpState := s.mpState.setFbo s.fboRef }
      let pContext := pContext ++ [Command.pushGraphicsState s.mpState s.stateFbo]
      let pContext := pContext ++ [Command.pushGraphicsVars s.mpVars]
      let pContext := pContext ++ [Command.renderScene renderer]
      let pContext := pContext ++ [Command.popGraphicsState]
      let pContext := pContext ++ [Command.popGraphicsVars]
      some (s, pContext)
    | none => some (s, pContext)

/-- The member function `SceneRenderPass::getOutput(name)`: the shared pointer returned
(a texture converts to its base class `Resource`); `none` when the "color" branch
dereferences a null `mpFbo`. The fallback `RenderPass::getOutput` of the base class is
declared in an absent header and is the parameter `baseGetOutput`. -/
def getOutput (s : SceneRenderPass) (baseGetOutput : String → Option Resource) (name : String) :
    Option (Option Resource) :=
  if name = kColor then
    match s.mpFbo with
    | none => none
    | some fbo => some ((fbo.getColorTexture 0).map Resource.texture)
  else some (baseGetOutput name)

/-- The member function `SceneRenderPass::getInput(name)`: the shared pointer returned;
`none` when the "depth" branch dereferences a null `mpFbo`. The fallback
`RenderPass::getInput` of the base class is the parameter `baseGetInput`. -/
def getInput (s : SceneRenderPass) (baseGetInput : String → Option Resource) (name : String) :
    Option (Option Resource) :=
  if name = kDepth then
    match s.mpFbo with
    | none => none
    | some fbo => some (fbo.getDepthStencilTexture.map Resource.texture)
  else some (baseGetInput name)

end SceneRenderPass

/-- The FBO that `execute` clears and draws into: the FBO of the pass, with a fresh
`D32Float` depth target of the FBO's size attached when it had none. -/
def SceneRenderPass.executeFbo (fbo : Fbo) : Fbo :=
  if fbo.getDepthStencilTexture.isNone then
    fbo.attachDepthStencilTarget
      (some (Texture.create2D fbo.getWidth fbo.getHeight ResourceFormat.D32Float 1 1
        BindFlags.DepthStencil))
  else fbo

/-! ## Call sequences -/

/-- A call the host graph makes on the pass. -/
inductive Call where
  | setInput (name : String) (pResource : Option Resource)
  | setOutput (name : String) (pResource : Option Resource)
  | execute

/-- Makes one call on the pass with the given render context; the returned flag of a bind
call is dropped. -/
def Call.apply (st : SceneRenderPass × RenderContext) :
    Call → Option (SceneRenderPass × RenderContext)
  | Call.setInput name pResource =>
    (st.1.setInput name pResource).map (fun out => (out.pass, st.2))
  | Call.setOutput name pResource => some ((st.1.setOutput name pResource).pass, st.2)
  | Call.execute => st.1.execute st.2

/-- Makes the calls in order, the head of the list first. -/
def runCalls : SceneRenderPass × RenderContext → List Call →
    Option (SceneRenderPass × RenderContext)
  | st, [] => some st
  | st, c :: cs => (c.apply st).bind (fun st1 => runCalls st1 cs)

/-- The resource of a call that is `setInput("depth", r)`. -/
def Call.depthInput : Call → Option (Option Resource)
  | Call.setInput name pResource => if name = kDepth then some pResource else none
  | _ => none

/-- The resource passed by the most recent `setInput("depth", r)` of a call sequence. -/
def lastDepthInput : List Call → Option (Option Resource)
  | [] => none
  | c :: cs =>
    match lastDepthInput cs with
    | some r => some r
    | none => c.depthInput

/-- The state a pass is in when `r` is what the most recent `setInput("depth", r)` passed:
with a texture, the FBO holds that texture, the flags are `Color` and the depth-stencil state
is `mpDsNoDepthWrite`; otherwise the flags are `Color | Depth`, the depth-stencil state is
null and the FBO holds no depth target or a 2D `D32Float` depth-stencil texture of some size.
This is the invariant used to show that call sequences run to the end; where the depth
target comes from is stated in `depth_clear_policy` itself. -/
def DepthPolicy (r : Option Resource) (s : SceneRenderPass) : Prop :=
  ∃ fbo, s.mpFbo = some fbo ∧
    ((∃ t, dynamic_pointer_cast_Texture r = some t ∧ fbo.getDepthStencilTexture = some t ∧
        s.mClearFlags = FboAttachmentType.Color ∧
        s.mpState.depthStencilState = some s.mpDsNoDepthWrite) ∨
     (dynamic_pointer_cast_Texture r = none ∧
        s.mClearFlags = FboAttachmentType.or FboAttachmentType.Color FboAttachmentType.Depth ∧
        s.mpState.depthStencilState = none ∧
        (fbo.getDepthStencilTexture = none ∨
          ∃ w h, fbo.getDepthStencilTexture
            = some (Texture.create2D w h ResourceFormat.D32Float 1 1 BindFlags.DepthStencil))))

/-! ## Sample values -/

/-- The program the constructor loads. -/
def sampleProgram : GraphicsProgram := ⟨"RenderPasses/SceneRenderPass.slang", "", "ps"⟩

/-- A freshly constructed pass that clears colour and depth to white. -/
def samplePass : SceneRenderPass :=
  SceneRenderPass.ctor sampleProgram
    (FboAttachmentType.or FboAttachmentType.Color FboAttachmentType.Depth) ⟨1, 1, 1, 1⟩

/-- A 640x480 colour texture. -/
def sampleColor : Texture :=
  Texture.create2D 640 480 ResourceFormat.RGBA8Unorm 1 1 BindFlags.RenderTarget

/-- A 640x480 depth texture. -/
def sampleDepth : Texture :=
  Texture.create2D 640 480 ResourceFormat.D32Float 1 1 BindFlags.DepthStencil

/-- A scene. -/
def sampleScene : Scene := ⟨"arcade"⟩

/-- A 1280x720 colour texture. -/
def sampleColorLarge : Texture :=
  Texture.create2D 1280 720 ResourceFormat.RGBA8Unorm 1 1 BindFlags.RenderTarget

/-- The fresh pass with the 640x480 colour texture bound and the scene attached. -/
def sampleReady : SceneRenderPass :=
  ({ (samplePass.setOutput kColor (some (Resource.texture sampleColor))).pass with
      mpScene := some sampleScene }).sceneChangedCB

/-- The calls: bind a 640x480 colour target and a host depth texture of that size, execute,
then bind a 1280x720 colour target and a null depth input. -/
def sampleCalls : List Call :=
  [Call.setOutput "color" (some (Resource.texture sampleColor)),
   Call.setInput "depth" (some (Resource.texture sampleDepth)),
   Call.execute,
   Call.setOutput "color" (some (Resource.texture sampleColorLarge)),
   Call.setInput "depth" none]

/-- The pass `sampleReady` after one `execute`: its graphics state now points to the FBO. -/
def sampleRendered : SceneRenderPass :=
  match sampleReady.execute [] with
  | some (s, _) => s
  | none => sampleReady

/-! ## The constructor invariant -/

/-- The constructor leaves the pass with an empty FBO and without a scene renderer. -/
theorem ctor_mpFbo (pProgram : GraphicsProgram) (clearFlags : FboAttachmentType)
    (clearColor : vec4) :
    (SceneRenderPass.ctor pProgram clearFlags clearColor).mpFbo = some Fbo.create ∧
    (SceneRenderPass.ctor pProgram clearFlags clearColor).mpSceneRenderer = none :=
  ⟨rfl, rfl⟩

/-! ## Binding by name -/

/-- C1: `setInput` with a name other than "depth" and `setOutput` with a name other than
"color" return false and leave the pass as it was, in particular colour attachment 0 and the
depth-stencil attachment of the FBO, the depth-stencil state and the clear flags. -/
theorem bind_unknown_name_rejected (s : SceneRenderPass) (name : String)
    (pResource : Option Resource) :
    (name ≠ kDepth →
      ∃ out, s.setInput name pResource = some out ∧ out.ret = false ∧ out.pass = s ∧
        out.pass.mpFbo.map (fun f => f.getColorTexture 0)
          = s.mpFbo.map (fun f => f.getColorTexture 0) ∧
        out.pass.mpFbo.map Fbo.getDepthStencilTexture
          = s.mpFbo.map Fbo.getDepthStencilTexture ∧
        out.pass.mpState.depthStencilState = s.mpState.depthStencilState ∧
        out.pass.mClearFlags = s.mClearFlags) ∧
    (name ≠ kColor →
      (s.setOutput name pResource).ret = false ∧ (s.setOutput name pResource).pass = s ∧
        (s.setOutput name pResource).pass.mpFbo.map (fun f => f.getColorTexture 0)
          = s.mpFbo.map (fun f => f.getColorTexture 0) ∧
        (s.setOutput name pResource).pass.mpFbo.map Fbo.getDepthStencilTexture
          = s.mpFbo.map Fbo.getDepthStencilTexture ∧
        (s.setOutput name pResource).pass.mpState.depthStencilState
          = s.mpState.depthStencilState ∧
        (s.setOutput name pResource).pass.mClearFlags = s.mClearFlags) := by
  constructor
  · intro hname
    refine ⟨⟨false, s, [SceneRenderPass.msgSetInput name]⟩, ?_, rfl, rfl, rfl, rfl, rfl, rfl⟩
    simp [SceneRenderPass.setInput, hname]
  · intro hname
    have hpass : (s.setOutput name pResource).ret = false ∧
        (s.setOutput name pResource).pass = s := by
      unfold SceneRenderPass.setOutput
      cases s.mpFbo with
      | none => exact ⟨rfl, rfl⟩
      | some fbo => simp [hname]
    refine ⟨hpass.1, hpass.2, ?_, ?_, ?_, ?_⟩ <;> rw [hpass.2]

/-- The statement of C1 at the fresh pass, the name "normals" and a colour texture. -/
theorem bind_unknown_name_rejected_witness :
    (∃ out, samplePass.setInput "normals" (some (Resource.texture sampleColor)) = some out ∧
        out.ret = false ∧ out.pass = samplePass) ∧
    ((samplePass.setOutput "normals" (some (Resource.texture sampleColor))).ret = false ∧
      (samplePass.setOutput "normals" (some (Resource.texture sampleColor))).pass = samplePass) := by
  have h := bind_unknown_name_rejected samplePass "normals" (some (Resource.texture sampleColor))
  obtain ⟨out, h1, h2, h3, _⟩ := h.1 (by decide)
  obtain ⟨h4, h5, _⟩ := h.2 (by decide)
  exact ⟨⟨out, h1, h2, h3⟩, h4, h5⟩

/-- C2: `setInput` never returns true: on the fresh pass, binding a depth texture to the
declared slot "depth" returns false, and for every pass, name and resource the value
returned is not true. -/
theorem setInput_depth_returns_false :
    (samplePass.setInput "depth" (some (Resource.texture sampleDepth))).map BindResult.ret
        = some false ∧
    ∀ (s : SceneRenderPass) (name : String) (pResource : Option Resource),
      (s.setInput name pResource).map BindResult.ret ≠ some true := by
  constructor
  · rfl
  · intro s name pResource
    unfold SceneRenderPass.setInput
    by_cases hname : name = kDepth
    · cases hf : s.mpFbo <;> simp [hname]
    · simp [hname]

/-- C8: with an FBO, `setOutput("color", r)` returns true; colour attachment 0 becomes `r`
cast to a texture, and every other colour attachment, the depth-stencil attachment, the
graphics state with its depth-stencil state, the clear flags and the scene renderer stay.
The graphics state keeps its pointer to the FBO, so the FBO seen through it is the one with
the new colour attachment whenever the state points to the FBO of the pass. -/
theorem setOutput_color_frame (s : SceneRenderPass) (fbo : Fbo) (pResource : Option Resource)
    (hfbo : s.mpFbo = some fbo) :
    (s.setOutput kColor pResource).ret = true ∧
    (s.setOutput kColor pResource).logged = [] ∧
    (s.setOutput kColor pResource).pass
      = { s with mpFbo := some (fbo.attachColorTarget (dynamic_pointer_cast_Texture pResource) 0) } ∧
    (∃ fbo1, (s.setOutput kColor pResource).pass.mpFbo = some fbo1 ∧
      fbo1.getColorTexture 0 = dynamic_pointer_cast_Texture pResource ∧
      (∀ i, i ≠ 0 → fbo1.getColorTexture i = fbo.getColorTexture i) ∧
      fbo1.getDepthStencilTexture = fbo.getDepthStencilTexture) ∧
    (pResource = none → ∃ fbo1, (s.setOutput kColor pResource).pass.mpFbo = some fbo1 ∧
      fbo1.getColorTexture 0 = none) ∧
    (∀ b, pResource = some (Resource.buffer b) →
      ∃ fbo1, (s.setOutput kColor pResource).pass.mpFbo = some fbo1 ∧
        fbo1.getColorTexture 0 = none) ∧
    (∀ t, pResource = some (Resource.texture t) →
      ∃ fbo1, (s.setOutput kColor pResource).pass.mpFbo = some fbo1 ∧
        fbo1.getColorTexture 0 = some t) ∧
    (s.setOutput kColor pResource).pass.mpState = s.mpState ∧
    (s.setOutput kColor pResource).pass.mpState.depthStencilState
      = s.mpState.depthStencilState ∧
    (s.setOutput kColor pResource).pass.mClearFlags = s.mClearFlags ∧
    (s.setOutput kColor pResource).pass.mpSceneRenderer = s.mpSceneRenderer ∧
    (s.mpState.fbo = some FboRef.passFbo →
      s.stateFbo = some fbo ∧
      (s.setOutput kColor pResource).pass.stateFbo
        = some (fbo.attachColorTarget (dynamic_pointer_cast_Texture pResource) 0)) ∧
    (s.mpState.fbo = none → (s.setOutput kColor pResource).pass.stateFbo = none) := by
  have hout : s.setOutput kColor pResource
      = ⟨true, { s with mpFbo := some (fbo.attachColorTarget
          (dynamic_pointer_cast_Texture pResource) 0) }, []⟩ := by
    simp [SceneRenderPass.setOutput, hfbo]
  rw [hout]
  refine ⟨rfl, rfl, rfl, ⟨_, rfl, ?_, ?_, rfl⟩, ?_, ?_, ?_, rfl, rfl, rfl, rfl, ?_, ?_⟩
  · simp [Fbo.getColorTexture, Fbo.attachColorTarget]
  · intro i hi
    simp [Fbo.getColorTexture, Fbo.attachColorTarget, hi]
  · intro hr
    exact ⟨_, rfl, by simp [Fbo.getColorTexture, Fbo.attachColorTarget, hr,
      dynamic_pointer_cast_Texture]⟩
  · intro b hr
    exact ⟨_, rfl, by simp [Fbo.getColorTexture, Fbo.attachColorTarget, hr,
      dynamic_pointer_cast_Texture]⟩
  · intro t hr
    exact ⟨_, rfl, by simp [Fbo.getColorTexture, Fbo.attachColorTarget, hr,
      dynamic_pointer_cast_Texture]⟩
  · intro hst
    simp [SceneRenderPass.stateFbo, hst, hfbo]
  · intro hst
    simp [SceneRenderPass.stateFbo, hst]

/-- The statement of C8 at a pass that has executed with a scene, so that its graphics state
points to the FBO: binding a 1280x720 colour texture shows through `mpFbo` and through the
graphics state alike, and the clear flags stay. -/
theorem setOutput_color_frame_witness :
    sampleRendered.mpFbo
      = some (SceneRenderPass.executeFbo (Fbo.create.attachColorTarget (some sampleColor) 0)) ∧
    sampleRendered.mpState.fbo = some FboRef.passFbo ∧
    (sampleRendered.setOutput kColor (some (Resource.texture sampleColorLarge))).ret = true ∧
    (∃ fbo1, (sampleRendered.setOutput kColor (some (Resource.texture sampleColorLarge))).pass.mpFbo
        = some fbo1 ∧ fbo1.getColorTexture 0 = some sampleColorLarge) ∧
    (∃ fbo1, (sampleRendered.setOutput kColor
        (some (Resource.texture sampleColorLarge))).pass.stateFbo = some fbo1 ∧
      fbo1.getColorTexture 0 = some sampleColorLarge) ∧
    (sampleRendered.setOutput kColor (some (Resource.texture sampleColorLarge))).pass.mClearFlags
      = sampleRendered.mClearFlags := by
  have h := setOutput_color_frame sampleRendered
    (SceneRenderPass.executeFbo (Fbo.create.attachColorTarget (some sampleColor) 0))
    (some (Resource.texture sampleColorLarge)) rfl
  refine ⟨rfl, rfl, h.1, h.2.2.2.2.2.2.1 sampleColorLarge rfl, ?_, h.2.2.2.2.2.2.2.2.2.1⟩
  refine ⟨_, (h.2.2.2.2.2.2.2.2.2.2.2.1 rfl).2, ?_⟩
  simp [Fbo.getColorTexture, Fbo.attachColorTarget, dynamic_pointer_cast_Texture]

/-! ## The static contract -/

/-- C9: the contract of `createRenderPassData` has exactly one output, named "color" with
`RenderTarget` bind flags, and exactly one input, named "depth", not required, of format
`Unknown` with `DepthStencil` bind flags; the field names are pairwise distinct. -/
theorem createRenderPassData_contract (init : Field) :
    (∃ color, (createRenderPassData init).outputs = [color] ∧ color.name = "color" ∧
      color.bindFlags = BindFlags.RenderTarget) ∧
    (∃ depth, (createRenderPassData init).inputs = [depth] ∧ depth.name = "depth" ∧
      depth.required = false ∧ depth.format = ResourceFormat.Unknown ∧
      depth.bindFlags = BindFlags.DepthStencil) ∧
    (((createRenderPassData init).inputs ++ (createRenderPassData init).outputs).map
      Field.name).Nodup := by
  refine ⟨⟨_, rfl, rfl, rfl⟩, ⟨_, rfl, rfl, rfl, rfl, rfl⟩, ?_⟩
  simp [createRenderPassData, kColor, kDepth]

/-! ## Readiness validation -/

/-- The three messages of `isValid` are non-empty. -/
theorem isValid_messages_length :
    0 < SceneRenderPass.msgNoScene.length ∧ 0 < SceneRenderPass.msgNoColor.length ∧
      0 < SceneRenderPass.msgBadFbo.length := by
  refine ⟨?_, ?_, ?_⟩ <;> decide

/-- What `isValid` computes when the FBO is there: the conjunction of the three checks and
the log extended by the message of each failing check, in source order. -/
theorem isValid_eq (s : SceneRenderPass) (log : String) (fbo : Fbo) (hfbo : s.mpFbo = some fbo) :
    s.isValid log = some
      (s.mpSceneRenderer.isSome && (fbo.getColorTexture 0).isSome && fbo.checkStatus,
       log ++ ((if s.mpSceneRenderer.isNone then SceneRenderPass.msgNoScene else "") ++
         ((if (fbo.getColorTexture 0).isNone then SceneRenderPass.msgNoColor else "") ++
          (if fbo.checkStatus = false then SceneRenderPass.msgBadFbo else "")))) := by
  unfold SceneRenderPass.isValid
  rw [hfbo]
  cases hr : s.mpSceneRenderer <;> cases hc : fbo.getColorTexture 0 <;>
    cases hs : fbo.checkStatus <;> simp [String.append_assoc, hc, hs]

/-- The scene renderer after `sceneChangedCB` is non-null exactly when a scene is attached. -/
theorem sceneChangedCB_renderer (s : SceneRenderPass) :
    s.sceneChangedCB.mpSceneRenderer.isSome = s.mpScene.isSome ∧
    s.sceneChangedCB.mpFbo = s.mpFbo := by
  unfold SceneRenderPass.sceneChangedCB
  cases s.mpScene <;> simp [SceneRenderer.create]

/-- C3: once `sceneChangedCB` has run, `isValid` returns true if and only if a scene is
attached (and then the scene renderer is non-null), the FBO has a colour texture at index 0
and the FBO status check succeeds. -/
theorem isValid_iff_after_sceneChanged (s : SceneRenderPass) (log : String) (fbo : Fbo)
    (hfbo : s.mpFbo = some fbo) :
    ∃ b log1, s.sceneChangedCB.isValid log = some (b, log1) ∧
      (s.mpScene.isSome = true ↔ s.sceneChangedCB.mpSceneRenderer.isSome = true) ∧
      (b = true ↔
        s.mpScene.isSome = true ∧ (fbo.getColorTexture 0).isSome = true ∧
          fbo.checkStatus = true) := by
  have hcb := sceneChangedCB_renderer s
  have hv := isValid_eq s.sceneChangedCB log fbo (by rw [hcb.2, hfbo])
  refine ⟨_, _, hv, ?_, ?_⟩
  · rw [hcb.1]
  · rw [hcb.1]
    simp [Bool.and_eq_true, and_assoc]

/-- The statement of C3 at a pass with a scene and a colour texture bound. -/
theorem isValid_iff_after_sceneChanged_witness :
    ({ (samplePass.setOutput kColor (some (Resource.texture sampleColor))).pass with
        mpScene := some sampleScene }).mpFbo
      = some (Fbo.create.attachColorTarget (some sampleColor) 0) ∧
    ∃ b log1,
      ({ (samplePass.setOutput kColor (some (Resource.texture sampleColor))).pass with
          mpScene := some sampleScene }).sceneChangedCB.isValid "" = some (b, log1) ∧
      (b = true ↔
        (some sampleScene).isSome = true ∧
          ((Fbo.create.attachColorTarget (some sampleColor) 0).getColorTexture 0).isSome = true ∧
          (Fbo.create.attachColorTarget (some sampleColor) 0).checkStatus = true) := by
  refine ⟨rfl, ?_⟩
  obtain ⟨b, log1, h1, _, h3⟩ := isValid_iff_after_sceneChanged
    ({ (samplePass.setOutput kColor (some (Resource.texture sampleColor))).pass with
        mpScene := some sampleScene }) "" (Fbo.create.attachColorTarget (some sampleColor) 0) rfl
  exact ⟨b, log1, h1, h3⟩

/-- C4: `isValid` only appends to the log. The new log is the old one followed by the
message of every failing check in the order scene, colour texture, FBO status; it is the old
log when the result is true, and the old log followed by a non-empty text, hence strictly
longer, when the result is false. -/
theorem isValid_appends (s : SceneRenderPass) (log : String) (fbo : Fbo)
    (hfbo : s.mpFbo = some fbo) :
    ∃ b log1, s.isValid log = some (b, log1) ∧
      log1 = log ++ ((if s.mpSceneRenderer.isNone then SceneRenderPass.msgNoScene else "") ++
         ((if (fbo.getColorTexture 0).isNone then SceneRenderPass.msgNoColor else "") ++
          (if fbo.checkStatus = false then SceneRenderPass.msgBadFbo else ""))) ∧
      (b = true → log1 = log) ∧
      (b = false → (∃ added, added ≠ "" ∧ log1 = log ++ added) ∧ log.length < log1.length) := by
  refine ⟨_, _, isValid_eq s log fbo hfbo, rfl, ?_, ?_⟩
  · cases s.mpSceneRenderer <;> cases fbo.getColorTexture 0 <;> cases fbo.checkStatus <;> simp
  · intro hb
    have hne : ((if s.mpSceneRenderer.isNone then SceneRenderPass.msgNoScene else "") ++
         ((if (fbo.getColorTexture 0).isNone then SceneRenderPass.msgNoColor else "") ++
          (if fbo.checkStatus = false then SceneRenderPass.msgBadFbo else ""))).length ≠ 0 := by
      obtain ⟨h1, h2, h3⟩ := isValid_messages_length
      revert hb
      cases s.mpSceneRenderer <;> cases fbo.getColorTexture 0 <;> cases fbo.checkStatus <;>
        simp [String.length_append] <;> omega
    refine ⟨⟨_, ?_, rfl⟩, ?_⟩
    · intro h0
      rw [h0] at hne
      exact hne rfl
    · rw [String.length_append]
      omega

/-- The statement of C4 at the fresh pass, where the scene and the colour texture are missing. -/
theorem isValid_appends_witness :
    samplePass.mpFbo = some Fbo.create ∧
    ∃ b log1, samplePass.isValid "log: " = some (b, log1) ∧
      (b = true → log1 = "log: ") ∧
      (b = false → (∃ added, added ≠ "" ∧ log1 = "log: " ++ added) ∧
        ("log: " : String).length < log1.length) := by
  refine ⟨rfl, ?_⟩
  obtain ⟨b, log1, h1, _, h3, h4⟩ := isValid_appends samplePass "log: " Fbo.create rfl
  exact ⟨b, log1, h1, h3, h4⟩

/-! ## Execution -/

/-- Without a depth target `execute` attaches a new one. -/
theorem executeFbo_of_no_depth (fbo : Fbo) (hd : fbo.getDepthStencilTexture = none) :
    SceneRenderPass.executeFbo fbo
      = fbo.attachDepthStencilTarget
          (some (Texture.create2D fbo.getWidth fbo.getHeight ResourceFormat.D32Float 1 1
            BindFlags.DepthStencil)) := by
  simp [SceneRenderPass.executeFbo, hd]

/-- With a depth target `execute` leaves the FBO alone. -/
theorem executeFbo_of_depth (fbo : Fbo) (d : Texture) (hd : fbo.getDepthStencilTexture = some d) :
    SceneRenderPass.executeFbo fbo = fbo := by
  simp [SceneRenderPass.executeFbo, hd]

/-- What `execute` does without a scene renderer: the clear and nothing else. -/
theorem execute_eq_of_no_renderer (s : SceneRenderPass) (pContext : RenderContext) (fbo : Fbo)
    (hfbo : s.mpFbo = some fbo) (hr : s.mpSceneRenderer = none) :
    s.execute pContext = some
      ({ s with mpFbo := some (SceneRenderPass.executeFbo fbo) },
       pContext ++ [Command.clearFbo (SceneRenderPass.executeFbo fbo) s.mClearColor 1 0
         s.mClearFlags]) := by
  simp [SceneRenderPass.execute, SceneRenderPass.executeFbo, hfbo, hr]

/-- What `execute` does with a scene renderer: the clear, then the draw between the pushes
and pops of graphics state and vars. -/
theorem execute_eq_of_renderer (s : SceneRenderPass) (pContext : RenderContext) (fbo : Fbo)
    (renderer : SceneRenderer) (hfbo : s.mpFbo = some fbo)
    (hr : s.mpSceneRenderer = some renderer) :
    s.execute pContext = some
      ({ s with mpFbo := some (SceneRenderPass.executeFbo fbo),
                mpState := s.mpState.setFbo (some FboRef.passFbo) },
       pContext ++
        [Command.clearFbo (SceneRenderPass.executeFbo fbo) s.mClearColor 1 0 s.mClearFlags,
         Command.pushGraphicsState (s.mpState.setFbo (some FboRef.passFbo))
           (some (SceneRenderPass.executeFbo fbo)),
         Command.pushGraphicsVars s.mpVars,
         Command.renderScene renderer,
         Command.popGraphicsState,
         Command.popGraphicsVars]) := by
  simp [SceneRenderPass.execute, SceneRenderPass.executeFbo, SceneRenderPass.fboRef,
    SceneRenderPass.stateFbo, GraphicsState.setFbo, hfbo, hr]

/-- C5: without a scene renderer `execute` submits the clear once and neither a scene draw
nor a push or pop of graphics state or vars, and `isValid` returns false with a log that
contains "must have a scene attached". With a scene renderer `execute` submits exactly one
draw, and the clear comes first. -/
theorem execute_draws_only_with_scene (s : SceneRenderPass) (pContext : RenderContext)
    (log : String) (fbo : Fbo) (hfbo : s.mpFbo = some fbo) :
    (s.mpSceneRenderer = none →
      (∃ s1 added, s.execute pContext = some (s1, pContext ++ added) ∧
        added = [Command.clearFbo (SceneRenderPass.executeFbo fbo) s.mClearColor 1 0
          s.mClearFlags] ∧
        added.countP Command.isClear = 1 ∧ added.countP Command.isDraw = 0 ∧
        added.countP Command.isPushPop = 0) ∧
      (∃ log1 before after, s.isValid log = some (false, log1) ∧
        log1 = before ++ "must have a scene attached" ++ after)) ∧
    (∀ renderer, s.mpSceneRenderer = some renderer →
      ∃ s1 clear rest, s.execute pContext = some (s1, pContext ++ clear :: rest) ∧
        clear = Command.clearFbo (SceneRenderPass.executeFbo fbo) s.mClearColor 1 0
          s.mClearFlags ∧
        rest.countP Command.isClear = 0 ∧ rest.countP Command.isDraw = 1 ∧
        Command.renderScene renderer ∈ rest) := by
  constructor
  · intro hr
    constructor
    · exact ⟨_, _, execute_eq_of_no_renderer s pContext fbo hfbo hr, rfl, rfl, rfl, rfl⟩
    · refine ⟨log ++ ((if (none : Option SceneRenderer).isNone then SceneRenderPass.msgNoScene
          else "") ++
          ((if (fbo.getColorTexture 0).isNone then SceneRenderPass.msgNoColor else "") ++
          (if fbo.checkStatus = false then SceneRenderPass.msgBadFbo else ""))),
        log ++ "SceneRenderPass ", " to it\n" ++
        ((if (fbo.getColorTexture 0).isNone then SceneRenderPass.msgNoColor else "") ++
          (if fbo.checkStatus = false then SceneRenderPass.msgBadFbo else "")), ?_, ?_⟩
      · have hv := isValid_eq s log fbo hfbo
        rw [hr] at hv
        exact hv
      · have hmsg : SceneRenderPass.msgNoScene
            = "SceneRenderPass " ++ ("must have a scene attached" ++ " to it\n") := by decide
        simp only [Option.isNone_none, if_true, String.append_assoc, hmsg]
  · intro renderer hr
    exact ⟨_, _, _, execute_eq_of_renderer s pContext fbo renderer hfbo hr, rfl, rfl, rfl,
      by simp⟩

/-- The statement of C5 at the fresh pass, and at the pass once a scene is attached. -/
theorem execute_draws_only_with_scene_witness :
    (samplePass.mpFbo = some Fbo.create ∧ samplePass.mpSceneRenderer = none ∧
      (∃ s1 added, samplePass.execute [] = some (s1, [] ++ added) ∧
        added.countP Command.isClear = 1 ∧ added.countP Command.isDraw = 0 ∧
        added.countP Command.isPushPop = 0) ∧
      (∃ log1 before after, samplePass.isValid "" = some (false, log1) ∧
        log1 = before ++ "must have a scene attached" ++ after)) ∧
    (({ samplePass with mpScene := some sampleScene }).sceneChangedCB.mpSceneRenderer
        = some ⟨sampleScene⟩ ∧
      ∃ s1 clear rest,
        ({ samplePass with mpScene := some sampleScene }).sceneChangedCB.execute []
          = some (s1, [] ++ clear :: rest) ∧
        rest.countP Command.isDraw = 1) := by
  refine ⟨⟨rfl, rfl, ?_, ?_⟩, rfl, ?_⟩
  · obtain ⟨s1, added, h1, _, h3, h4, h5⟩ :=
      ((execute_draws_only_with_scene samplePass [] "" Fbo.create rfl).1 rfl).1
    exact ⟨s1, added, h1, h3, h4, h5⟩
  · exact ((execute_draws_only_with_scene samplePass [] "" Fbo.create rfl).1 rfl).2
  · obtain ⟨s1, clear, rest, h1, _, _, h4, _⟩ :=
      (execute_draws_only_with_scene
        ({ samplePass with mpScene := some sampleScene }).sceneChangedCB [] "" Fbo.create rfl).2
        ⟨sampleScene⟩ rfl
    exact ⟨s1, clear, rest, h1, h4⟩

/-- C7: after `execute` the FBO has a depth-stencil target. If there was none, the new one is
a 2D `D32Float` depth-stencil texture with the width and height the FBO had at the call; if
there was one, it is still that one. The colour attachments are the same in both cases. -/
theorem execute_depth_target (s : SceneRenderPass) (pContext : RenderContext) (fbo : Fbo)
    (hfbo : s.mpFbo = some fbo) :
    ∃ s1 ctx1 fbo1, s.execute pContext = some (s1, ctx1) ∧ s1.mpFbo = some fbo1 ∧
      fbo1.getDepthStencilTexture ≠ none ∧
      (fbo.getDepthStencilTexture = none →
        ∃ t, fbo1.getDepthStencilTexture = some t ∧ t.type = ResourceType.Texture2D ∧
          t.format = ResourceFormat.D32Float ∧ t.bindFlags = BindFlags.DepthStencil ∧
          t.width = fbo.getWidth ∧ t.height = fbo.getHeight) ∧
      (∀ d, fbo.getDepthStencilTexture = some d → fbo1.getDepthStencilTexture = some d) ∧
      (∀ i, fbo1.getColorTexture i = fbo.getColorTexture i) := by
  have hex : ∃ s1 ctx1, s.execute pContext = some (s1, ctx1) ∧
      s1.mpFbo = some (SceneRenderPass.executeFbo fbo) := by
    cases hr : s.mpSceneRenderer with
    | none => exact ⟨_, _, execute_eq_of_no_renderer s pContext fbo hfbo hr, rfl⟩
    | some renderer => exact ⟨_, _, execute_eq_of_renderer s pContext fbo renderer hfbo hr, rfl⟩
  obtain ⟨s1, ctx1, h1, h2⟩ := hex
  refine ⟨s1, ctx1, _, h1, h2, ?_, ?_, ?_, ?_⟩
  · cases hd : fbo.getDepthStencilTexture with
    | none =>
      rw [executeFbo_of_no_depth fbo hd]
      exact Option.some_ne_none _
    | some d =>
      rw [executeFbo_of_depth fbo d hd, hd]
      exact Option.some_ne_none _
  · intro hd
    rw [executeFbo_of_no_depth fbo hd]
    exact ⟨_, rfl, rfl, rfl, rfl, rfl, rfl⟩
  · intro d hd
    rw [executeFbo_of_depth fbo d hd, hd]
  · intro i
    cases hd : fbo.getDepthStencilTexture with
    | none =>
      rw [executeFbo_of_no_depth fbo hd]
      rfl
    | some d => rw [executeFbo_of_depth fbo d hd]

/-- The statement of C7 at the fresh pass with a colour texture bound: `execute` attaches
a 640x480 depth target. -/
theorem execute_depth_target_witness :
    (samplePass.setOutput kColor (some (Resource.texture sampleColor))).pass.mpFbo
      = some (Fbo.create.attachColorTarget (some sampleColor) 0) ∧
    ∃ s1 ctx1 fbo1,
      (samplePass.setOutput kColor (some (Resource.texture sampleColor))).pass.execute []
        = some (s1, ctx1) ∧
      s1.mpFbo = some fbo1 ∧
      ∃ t, fbo1.getDepthStencilTexture = some t ∧ t.format = ResourceFormat.D32Float ∧
        t.width = 640 ∧ t.height = 480 := by
  refine ⟨rfl, ?_⟩
  obtain ⟨s1, ctx1, fbo1, h1, h2, _, h4, _⟩ := execute_depth_target
    (samplePass.setOutput kColor (some (Resource.texture sampleColor))).pass []
    (Fbo.create.attachColorTarget (some sampleColor) 0) rfl
  obtain ⟨t, ht, _, hf, _, hw, hh⟩ := h4 rfl
  exact ⟨s1, ctx1, fbo1, h1, h2, t, ht, hf, hw, hh⟩

/-! ## The depth-clear policy -/

/-- With an FBO, `setInput("depth", r)` succeeds in running and establishes the policy state
for `r`. -/
theorem setInput_depth_policy (s : SceneRenderPass) (fbo : Fbo) (r : Option Resource)
    (hfbo : s.mpFbo = some fbo) :
    ∃ out, s.setInput kDepth r = some out ∧ DepthPolicy r out.pass ∧
      out.pass.mpDsNoDepthWrite = s.mpDsNoDepthWrite := by
  cases hc : dynamic_pointer_cast_Texture r with
  | none =>
    refine ⟨_, by simp [SceneRenderPass.setInput, hfbo, hc]; rfl, ?_, rfl⟩
    exact ⟨_, rfl, Or.inr ⟨hc, rfl, rfl, Or.inl rfl⟩⟩
  | some t =>
    refine ⟨_, by simp [SceneRenderPass.setInput, hfbo, hc]; rfl, ?_, rfl⟩
    exact ⟨_, rfl, Or.inl ⟨t, hc, rfl, rfl, rfl⟩⟩

/-- One call on a pass with an FBO runs, keeps the FBO and `mpDsNoDepthWrite`, and moves the
policy state along with the most recent depth input. -/
theorem Call.apply_policy (c : Call) (s : SceneRenderPass) (ctx : RenderContext)
    (o : Option (Option Resource)) (hfbo : s.mpFbo.isSome = true)
    (hinv : ∀ r, o = some r → DepthPolicy r s) :
    ∃ s1 ctx1, c.apply (s, ctx) = some (s1, ctx1) ∧ s1.mpFbo.isSome = true ∧
      s1.mpDsNoDepthWrite = s.mpDsNoDepthWrite ∧
      ∀ r, (match c.depthInput with | some r1 => some r1 | none => o) = some r →
        DepthPolicy r s1 := by
  obtain ⟨fbo, hf⟩ := Option.isSome_iff_exists.mp hfbo
  cases c with
  | setInput name pResource =>
    by_cases hname : name = kDepth
    · subst hname
      obtain ⟨out, h1, h2, h3⟩ := setInput_depth_policy s fbo pResource hf
      refine ⟨out.pass, ctx, by simp [Call.apply, h1], ?_, h3, ?_⟩
      · obtain ⟨fbo1, hf1, _⟩ := h2
        simp [hf1]
      · intro r hr
        simp [Call.depthInput] at hr
        subst hr
        exact h2
    · refine ⟨s, ctx, by simp [Call.apply, SceneRenderPass.setInput, hname], hfbo, rfl, ?_⟩
      intro r hr
      simp [Call.depthInput, hname] at hr
      exact hinv r hr
  | setOutput name pResource =>
    by_cases hname : name = kColor
    · refine ⟨{ s with mpFbo := some (fbo.attachColorTarget
          (dynamic_pointer_cast_Texture pResource) 0) }, ctx,
        by simp [Call.apply, SceneRenderPass.setOutput, hf, hname], rfl, rfl, ?_⟩
      intro r hr
      simp [Call.depthInput] at hr
      obtain ⟨fbo0, hf0, hcases⟩ := hinv r hr
      rw [hf] at hf0
      cases hf0
      exact ⟨_, rfl, hcases⟩
    · refine ⟨s, ctx, by simp [Call.apply, SceneRenderPass.setOutput, hf, hname], hfbo, rfl, ?_⟩
      intro r hr
      simp [Call.depthInput] at hr
      exact hinv r hr
  | execute =>
    have hex : ∃ s1 ctx1, s.execute ctx = some (s1, ctx1) ∧
        s1.mpFbo = some (SceneRenderPass.executeFbo fbo) ∧
        s1.mpDsNoDepthWrite = s.mpDsNoDepthWrite ∧ s1.mClearFlags = s.mClearFlags ∧
        s1.mpState.depthStencilState = s.mpState.depthStencilState := by
      cases hr : s.mpSceneRenderer with
      | none => exact ⟨_, _, execute_eq_of_no_renderer s ctx fbo hf hr, rfl, rfl, rfl, rfl⟩
      | some renderer =>
        exact ⟨_, _, execute_eq_of_renderer s ctx fbo renderer hf hr, rfl, rfl, rfl, rfl⟩
    obtain ⟨s1, ctx1, h1, h2, h3, h4, h5⟩ := hex
    refine ⟨s1, ctx1, h1, by simp [h2], h3, ?_⟩
    intro r hr
    simp [Call.depthInput] at hr
    obtain ⟨fbo0, hf0, hcases⟩ := hinv r hr
    rw [hf] at hf0
    cases hf0
    refine ⟨_, h2, ?_⟩
    rcases hcases with ⟨t, hc, hd, hfl, hds⟩ | ⟨hc, hfl, hds, hd⟩
    · left
      refine ⟨t, hc, ?_, by rw [h4, hfl], by rw [h5, h3, hds]⟩
      rw [executeFbo_of_depth fbo t hd, hd]
    · right
      refine ⟨hc, by rw [h4, hfl], by rw [h5, hds], Or.inr ?_⟩
      rcases hd with hd | ⟨w, h, hd⟩
      · rw [executeFbo_of_no_depth fbo hd]
        exact ⟨_, _, rfl⟩
      · rw [executeFbo_of_depth fbo _ hd]
        exact ⟨w, h, hd⟩

/-- A call sequence on a pass with an FBO runs to the end, keeps the FBO, and ends in the
policy state of its most recent depth input (or of the one before the sequence). -/
theorem runCalls_policy (calls : List Call) :
    ∀ (s : SceneRenderPass) (ctx : RenderContext) (o : Option (Option Resource)),
      s.mpFbo.isSome = true → (∀ r, o = some r → DepthPolicy r s) →
      ∃ s1 ctx1, runCalls (s, ctx) calls = some (s1, ctx1) ∧ s1.mpFbo.isSome = true ∧
        s1.mpDsNoDepthWrite = s.mpDsNoDepthWrite ∧
        ∀ r, (match lastDepthInput calls with | some r1 => some r1 | none => o) = some r →
          DepthPolicy r s1 := by
  induction calls with
  | nil =>
    intro s ctx o hfbo hinv
    exact ⟨s, ctx, rfl, hfbo, rfl, fun r hr => hinv r (by simpa [lastDepthInput] using hr)⟩
  | cons c cs ih =>
    intro s ctx o hfbo hinv
    obtain ⟨s1, ctx1, h1, hf1, hd1, hinv1⟩ := Call.apply_policy c s ctx o hfbo hinv
    obtain ⟨s2, ctx2, h2, hf2, hd2, hinv2⟩ := ih s1 ctx1 _ hf1 hinv1
    refine ⟨s2, ctx2, by simp [runCalls, h1, h2], hf2, hd2.trans hd1, ?_⟩
    intro r hr
    apply hinv2 r
    rw [← hr]
    simp only [lastDepthInput]
    cases lastDepthInput cs <;> rfl

/-- A call sequence with a depth bind splits at its most recent one. -/
theorem lastDepthInput_split (calls : List Call) :
    ∀ r, lastDepthInput calls = some r →
      ∃ pre post, calls = pre ++ Call.setInput kDepth r :: post ∧ lastDepthInput post = none := by
  induction calls with
  | nil =>
    intro r h
    simp [lastDepthInput] at h
  | cons c cs ih =>
    intro r h
    cases hcs : lastDepthInput cs with
    | some r1 =>
      simp only [lastDepthInput, hcs] at h
      obtain ⟨pre, post, h1, h2⟩ := ih r1 hcs
      have hr : r1 = r := Option.some.inj h
      refine ⟨c :: pre, post, ?_, h2⟩
      rw [h1, hr]
      rfl
    | none =>
      simp only [lastDepthInput, hcs] at h
      cases c with
      | setInput name pResource =>
        by_cases hname : name = kDepth
        · simp [Call.depthInput, hname] at h
          exact ⟨[], cs, by simp [hname, h], hcs⟩
        · simp [Call.depthInput, hname] at h
      | setOutput name pResource => simp [Call.depthInput] at h
      | execute => simp [Call.depthInput] at h

/-- A sequence without depth bind has none in its head call and none in its tail. -/
theorem lastDepthInput_cons_none (c : Call) (cs : List Call)
    (h : lastDepthInput (c :: cs) = none) : c.depthInput = none ∧ lastDepthInput cs = none := by
  cases hcs : lastDepthInput cs with
  | some r1 => simp [lastDepthInput, hcs] at h
  | none => exact ⟨by simpa [lastDepthInput, hcs] using h, rfl⟩

/-- A sequence without depth bind has none in either part. -/
theorem lastDepthInput_append_none (a b : List Call) (h : lastDepthInput (a ++ b) = none) :
    lastDepthInput a = none ∧ lastDepthInput b = none := by
  induction a with
  | nil => exact ⟨rfl, h⟩
  | cons c cs ih =>
    obtain ⟨h1, h2⟩ := lastDepthInput_cons_none c (cs ++ b) h
    obtain ⟨h3, h4⟩ := ih h2
    exact ⟨by simp [lastDepthInput, h3, h1], h4⟩

/-- A sequence with an `execute` splits at its first one. -/
theorem first_execute_split (post : List Call) (h : Call.execute ∈ post) :
    ∃ post1 post2, post = post1 ++ Call.execute :: post2 ∧ Call.execute ∉ post1 := by
  induction post with
  | nil => simp at h
  | cons c cs ih =>
    cases c with
    | execute => exact ⟨[], cs, rfl, by simp⟩
    | setInput name pResource =>
      obtain ⟨p1, p2, h1, h2⟩ := ih (by simpa using h)
      exact ⟨Call.setInput name pResource :: p1, p2, by rw [h1]; rfl, by simp [h2]⟩
    | setOutput name pResource =>
      obtain ⟨p1, p2, h1, h2⟩ := ih (by simpa using h)
      exact ⟨Call.setOutput name pResource :: p1, p2, by rw [h1]; rfl, by simp [h2]⟩

/-- Running a concatenation is running its parts one after the other. -/
theorem runCalls_append (a b : List Call) :
    ∀ st, runCalls st (a ++ b) = (runCalls st a).bind (fun st1 => runCalls st1 b) := by
  induction a with
  | nil =>
    intro st
    simp [runCalls]
  | cons c cs ih =>
    intro st
    cases hc : c.apply st with
    | none => simp [runCalls, hc]
    | some st1 => simp [runCalls, hc, ih]

/-- What `setInput("depth", r)` does to a pass with an FBO. -/
theorem setInput_depth_eq (s : SceneRenderPass) (fbo : Fbo) (r : Option Resource)
    (hfbo : s.mpFbo = some fbo) :
    ∃ out, s.setInput kDepth r = some out ∧
      out.pass.mpFbo = some (fbo.attachDepthStencilTarget (dynamic_pointer_cast_Texture r)) ∧
      out.pass.mpDsNoDepthWrite = s.mpDsNoDepthWrite ∧
      (∀ t, dynamic_pointer_cast_Texture r = some t →
        out.pass.mClearFlags = FboAttachmentType.Color ∧
        out.pass.mpState.depthStencilState = some s.mpDsNoDepthWrite) ∧
      (dynamic_pointer_cast_Texture r = none →
        out.pass.mClearFlags
          = FboAttachmentType.or FboAttachmentType.Color FboAttachmentType.Depth ∧
        out.pass.mpState.depthStencilState = none) := by
  cases hc : dynamic_pointer_cast_Texture r with
  | none =>
    refine ⟨_, by simp [SceneRenderPass.setInput, hfbo, hc]; rfl, rfl, rfl, ?_, ?_⟩
    · intro t ht
      cases ht
    · intro _
      exact ⟨rfl, rfl⟩
  | some t =>
    refine ⟨_, by simp [SceneRenderPass.setInput, hfbo, hc]; rfl, rfl, rfl, ?_, ?_⟩
    · intro t1 _
      exact ⟨rfl, rfl⟩
    · intro ht
      cases ht

/-- A call that is not a depth bind keeps the clear flags and the depth-stencil state, keeps
a depth target that is attached, and unless it is `execute` keeps the depth slot as it is. -/
theorem Call.apply_frame (c : Call) (s s1 : SceneRenderPass) (ctx ctx1 : RenderContext)
    (f : Fbo) (hc : c.depthInput = none) (hf : s.mpFbo = some f)
    (h : c.apply (s, ctx) = some (s1, ctx1)) :
    ∃ f1, s1.mpFbo = some f1 ∧ s1.mClearFlags = s.mClearFlags ∧
      s1.mpState.depthStencilState = s.mpState.depthStencilState ∧
      (∀ d, f.getDepthStencilTexture = some d → f1.getDepthStencilTexture = some d) ∧
      (c ≠ Call.execute → f1.getDepthStencilTexture = f.getDepthStencilTexture) := by
  cases c with
  | setInput name pResource =>
    have hname : name ≠ kDepth := by
      intro hn
      simp [Call.depthInput, hn] at hc
    simp [Call.apply, SceneRenderPass.setInput, hname] at h
    obtain ⟨h1, _⟩ := h
    subst h1
    exact ⟨f, hf, rfl, rfl, fun d hd => hd, fun _ => rfl⟩
  | setOutput name pResource =>
    by_cases hname : name = kColor
    · simp [Call.apply, SceneRenderPass.setOutput, hf, hname] at h
      obtain ⟨h1, _⟩ := h
      subst h1
      exact ⟨_, rfl, rfl, rfl, fun d hd => hd, fun _ => rfl⟩
    · simp [Call.apply, SceneRenderPass.setOutput, hf, hname] at h
      obtain ⟨h1, _⟩ := h
      subst h1
      exact ⟨f, hf, rfl, rfl, fun d hd => hd, fun _ => rfl⟩
  | execute =>
    have hex : ∃ s2 ctx2, s.execute ctx = some (s2, ctx2) ∧
        s2.mpFbo = some (SceneRenderPass.executeFbo f) ∧ s2.mClearFlags = s.mClearFlags ∧
        s2.mpState.depthStencilState = s.mpState.depthStencilState := by
      cases hr : s.mpSceneRenderer with
      | none => exact ⟨_, _, execute_eq_of_no_renderer s ctx f hf hr, rfl, rfl, rfl⟩
      | some renderer =>
        exact ⟨_, _, execute_eq_of_renderer s ctx f renderer hf hr, rfl, rfl, rfl⟩
    obtain ⟨s2, ctx2, h1, h2, h3, h4⟩ := hex
    simp only [Call.apply] at h
    rw [h1] at h
    have hs : s2 = s1 := congrArg Prod.fst (Option.some.inj h)
    subst hs
    refine ⟨_, h2, h3, h4, ?_, fun hne => absurd rfl hne⟩
    intro d hd
    rw [executeFbo_of_depth f d hd, hd]

/-- A call sequence without depth bind keeps the clear flags and the depth-stencil state,
keeps a depth target that is attached, and without `execute` keeps the depth slot as it is. -/
theorem runCalls_frame (post : List Call) :
    ∀ (s s1 : SceneRenderPass) (ctx ctx1 : RenderContext) (f : Fbo),
      lastDepthInput post = none → s.mpFbo = some f →
      runCalls (s, ctx) post = some (s1, ctx1) →
      ∃ f1, s1.mpFbo = some f1 ∧ s1.mClearFlags = s.mClearFlags ∧
        s1.mpState.depthStencilState = s.mpState.depthStencilState ∧
        (∀ d, f.getDepthStencilTexture = some d → f1.getDepthStencilTexture = some d) ∧
        (Call.execute ∉ post → f1.getDepthStencilTexture = f.getDepthStencilTexture) := by
  induction post with
  | nil =>
    intro s s1 ctx ctx1 f _ hf h
    simp [runCalls] at h
    obtain ⟨h1, _⟩ := h
    subst h1
    exact ⟨f, hf, rfl, rfl, fun d hd => hd, fun _ => rfl⟩
  | cons c cs ih =>
    intro s s1 ctx ctx1 f hlast hf h
    obtain ⟨hc, hcs⟩ := lastDepthInput_cons_none c cs hlast
    cases hstep : c.apply (s, ctx) with
    | none => simp [runCalls, hstep] at h
    | some st =>
      obtain ⟨sm, ctxm⟩ := st
      simp only [runCalls, hstep, Option.some_bind] at h
      obtain ⟨fm, hfm, hfl, hst, hkeep, hsame⟩ := Call.apply_frame c s sm ctx ctxm f hc hf hstep
      obtain ⟨f1, hf1, hfl1, hst1, hkeep1, hsame1⟩ := ih sm s1 ctxm ctx1 fm hcs hfm h
      refine ⟨f1, hf1, hfl1.trans hfl, hst1.trans hst, fun d hd => hkeep1 d (hkeep d hd), ?_⟩
      intro hno
      have hne : c ≠ Call.execute := fun hce => hno (by simp [hce])
      have hno1 : Call.execute ∉ cs := fun hm => hno (List.mem_cons_of_mem _ hm)
      rw [hsame1 hno1, hsame hne]

/-- A call sequence on a pass with an FBO runs to the end and keeps `mpDsNoDepthWrite`. -/
theorem runCalls_total (calls : List Call) (s : SceneRenderPass) (ctx : RenderContext)
    (fbo : Fbo) (hfbo : s.mpFbo = some fbo) :
    ∃ s1 ctx1 fbo1, runCalls (s, ctx) calls = some (s1, ctx1) ∧ s1.mpFbo = some fbo1 ∧
      s1.mpDsNoDepthWrite = s.mpDsNoDepthWrite := by
  obtain ⟨s1, ctx1, h1, h2, h3, _⟩ :=
    runCalls_policy calls s ctx none (by simp [hfbo]) (fun r h => by cases h)
  obtain ⟨fbo1, hf1⟩ := Option.isSome_iff_exists.mp h2
  exact ⟨s1, ctx1, fbo1, h1, hf1, h3⟩

/-- The clear that `execute` submits on a pass with an FBO. -/
theorem execute_clear (s : SceneRenderPass) (ctx : RenderContext) (fbo : Fbo)
    (hfbo : s.mpFbo = some fbo) :
    ∃ s2 rest, s.execute ctx
      = some (s2, ctx ++ Command.clearFbo (SceneRenderPass.executeFbo fbo) s.mClearColor 1 0
          s.mClearFlags :: rest) := by
  cases hr : s.mpSceneRenderer with
  | none => exact ⟨_, _, execute_eq_of_no_renderer s ctx fbo hfbo hr⟩
  | some renderer => exact ⟨_, _, execute_eq_of_renderer s ctx fbo renderer hfbo hr⟩

/-- The FBO that `execute` leaves in a pass with an FBO. -/
theorem execute_fbo (s : SceneRenderPass) (ctx : RenderContext) (fbo : Fbo)
    (hfbo : s.mpFbo = some fbo) :
    ∃ s2 ctx2, s.execute ctx = some (s2, ctx2) ∧
      s2.mpFbo = some (SceneRenderPass.executeFbo fbo) := by
  cases hr : s.mpSceneRenderer with
  | none => exact ⟨_, _, execute_eq_of_no_renderer s ctx fbo hfbo hr, rfl⟩
  | some renderer => exact ⟨_, _, execute_eq_of_renderer s ctx fbo renderer hfbo hr, rfl⟩

/-- C6: take any sequence of `setInput`/`setOutput`/`execute` calls on a constructed pass
and let `setInput("depth", r)` be its most recent depth bind. Right after that bind the depth
slot of the FBO holds `r` cast to a texture, so a null or non-texture `r` detaches whatever
was there. The `execute` that follows the sequence clears with flags that include `Color`,
and that include `Depth` if and only if `r` is null or not a texture. If `r` is a texture,
the cleared FBO holds that texture, the flags are `Color` alone and the depth-stencil state is
the one the constructor built with depth write off. Otherwise the flags are `Color | Depth`,
the depth-stencil state is null, and the depth target cleared is one that `execute` itself
allocated after the bind: by this `execute` when none ran since the bind, and else by the
first `execute` after the bind, for the FBO size it found, and kept since. -/
theorem depth_clear_policy (s : SceneRenderPass) (ctx : RenderContext) (fbo : Fbo)
    (calls : List Call) (r : Option Resource) (hfbo : s.mpFbo = some fbo)
    (hds : s.mpDsNoDepthWrite
      = { depthTest := true, depthWriteMask := false, stencilTest := false,
          depthFunc := DepthFunc.LessEqual })
    (hlast : lastDepthInput calls = some r) :
    (∃ pre post sb ctxb fb s1 ctx1 fbo1 s2 fbo2 flags rest,
      calls = pre ++ Call.setInput kDepth r :: post ∧ lastDepthInput post = none ∧
      runCalls (s, ctx) (pre ++ [Call.setInput kDepth r]) = some (sb, ctxb) ∧
      sb.mpFbo = some fb ∧
      fb.getDepthStencilTexture = dynamic_pointer_cast_Texture r ∧
      runCalls (s, ctx) calls = some (s1, ctx1) ∧ s1.mpFbo = some fbo1 ∧
      s1.execute ctx1
        = some (s2, ctx1 ++ Command.clearFbo fbo2 s1.mClearColor 1 0 flags :: rest) ∧
      flags = s1.mClearFlags ∧
      flags.color = true ∧
      (flags.depth = true ↔ dynamic_pointer_cast_Texture r = none) ∧
      (∀ t, dynamic_pointer_cast_Texture r = some t →
        fbo1.getDepthStencilTexture = some t ∧ fbo2.getDepthStencilTexture = some t ∧
        flags = FboAttachmentType.Color ∧
        s1.mpState.depthStencilState
          = some { depthTest := true, depthWriteMask := false, stencilTest := false,
                   depthFunc := DepthFunc.LessEqual }) ∧
      (dynamic_pointer_cast_Texture r = none →
        flags = FboAttachmentType.or FboAttachmentType.Color FboAttachmentType.Depth ∧
        s1.mpState.depthStencilState = none ∧
        ((Call.execute ∉ post ∧ fbo1.getDepthStencilTexture = none ∧
            fbo2.getDepthStencilTexture
              = some (Texture.create2D fbo1.getWidth fbo1.getHeight ResourceFormat.D32Float 1 1
                  BindFlags.DepthStencil)) ∨
         (∃ post1 post2 sa ctxa fa,
            post = post1 ++ Call.execute :: post2 ∧ Call.execute ∉ post1 ∧
            runCalls (s, ctx) (pre ++ Call.setInput kDepth r :: post1) = some (sa, ctxa) ∧
            sa.mpFbo = some fa ∧ fa.getDepthStencilTexture = none ∧
            fbo1.getDepthStencilTexture
              = some (Texture.create2D fa.getWidth fa.getHeight ResourceFormat.D32Float 1 1
                  BindFlags.DepthStencil) ∧
            fbo2.getDepthStencilTexture = fbo1.getDepthStencilTexture)))) ∧
    (∀ t, ∃ out, s.setInput kDepth (some (Resource.texture t)) = some out ∧
      out.pass.mClearFlags = FboAttachmentType.Color ∧
      out.pass.mpState.depthStencilState
        = some { depthTest := true, depthWriteMask := false, stencilTest := false,
                 depthFunc := DepthFunc.LessEqual } ∧
      (out.pass.mpFbo.bind Fbo.getDepthStencilTexture) = some t) := by
  constructor
  · obtain ⟨pre, post, hsplit, hpost⟩ := lastDepthInput_split calls r hlast
    obtain ⟨s0, ctx0, f0, hrun0, hf0, hds0⟩ := runCalls_total pre s ctx fbo hfbo
    obtain ⟨out, hset, hfb, hdsb, htex, hnul⟩ := setInput_depth_eq s0 f0 r hf0
    have happly : (Call.setInput kDepth r).apply (s0, ctx0) = some (out.pass, ctx0) := by
      simp [Call.apply, hset]
    have hrunb : runCalls (s, ctx) (pre ++ [Call.setInput kDepth r])
        = some (out.pass, ctx0) := by
      rw [runCalls_append, hrun0]
      simp [runCalls, happly]
    obtain ⟨s1, ctx1, fbo1, hrun1, hf1, _⟩ := runCalls_total post out.pass ctx0 _ hfb
    have hrunAll : runCalls (s, ctx) calls = some (s1, ctx1) := by
      rw [hsplit, runCalls_append, hrun0]
      simp [runCalls, happly, hrun1]
    obtain ⟨f1, hf1a, hfl, hst, hkeep, hsame⟩ :=
      runCalls_frame post out.pass s1 ctx0 ctx1 _ hpost hfb hrun1
    have hf11 : f1 = fbo1 := Option.some.inj (hf1a.symm.trans hf1)
    subst hf11
    obtain ⟨s2, rest, hexec⟩ := execute_clear s1 ctx1 f1 hf1
    have hdepthb : (f0.attachDepthStencilTarget
        (dynamic_pointer_cast_Texture r)).getDepthStencilTexture
          = dynamic_pointer_cast_Texture r := rfl
    refine ⟨pre, post, out.pass, ctx0, _, s1, ctx1, f1, s2, _, _, rest, hsplit, hpost, hrunb,
      hfb, hdepthb, hrunAll, hf1, hexec, rfl, ?_, ?_, ?_, ?_⟩
    · cases hc : dynamic_pointer_cast_Texture r with
      | none => rw [hfl, (hnul hc).1]; rfl
      | some t => rw [hfl, (htex t hc).1]; rfl
    · cases hc : dynamic_pointer_cast_Texture r with
      | none =>
        rw [hfl, (hnul hc).1]
        simp [FboAttachmentType.or, FboAttachmentType.Depth]
      | some t =>
        rw [hfl, (htex t hc).1]
        simp [FboAttachmentType.Color]
    · intro t ht
      have hd1 : f1.getDepthStencilTexture = some t := hkeep t (by rw [hdepthb, ht])
      refine ⟨hd1, ?_, by rw [hfl, (htex t ht).1], ?_⟩
      · rw [executeFbo_of_depth f1 t hd1, hd1]
      · rw [hst, (htex t ht).2, hds0, hds]
    · intro hnone
      refine ⟨by rw [hfl, (hnul hnone).1], by rw [hst, (hnul hnone).2], ?_⟩
      by_cases hex : Call.execute ∈ post
      · right
        obtain ⟨post1, post2, hp, hno1⟩ := first_execute_split post hex
        have hpost12 := lastDepthInput_append_none post1 (Call.execute :: post2)
          (by rw [← hp]; exact hpost)
        have hpost2 := (lastDepthInput_cons_none Call.execute post2 hpost12.2).2
        obtain ⟨sa, ctxa, fa, hruna, hfa, _⟩ := runCalls_total post1 out.pass ctx0 _ hfb
        obtain ⟨fa1, hfa1, _, _, _, hsamea⟩ :=
          runCalls_frame post1 out.pass sa ctx0 ctxa _ hpost12.1 hfb hruna
        have hfaeq : fa1 = fa := Option.some.inj (hfa1.symm.trans hfa)
        subst hfaeq
        have hda : fa1.getDepthStencilTexture = none := by
          rw [hsamea hno1, hdepthb, hnone]
        obtain ⟨sx, ctxx, hexa, hfx⟩ := execute_fbo sa ctxa fa1 hfa
        have hrun2 : runCalls (sx, ctxx) post2 = some (s1, ctx1) := by
          have h := hrun1
          rw [hp, runCalls_append, hruna] at h
          simpa [runCalls, Call.apply, hexa] using h
        obtain ⟨f2, hf2, _, _, hkeep2, _⟩ :=
          runCalls_frame post2 sx s1 ctxx ctx1 _ hpost2 hfx hrun2
        have hf2eq : f2 = f1 := Option.some.inj (hf2.symm.trans hf1)
        subst hf2eq
        have hd1 : f2.getDepthStencilTexture
            = some (Texture.create2D fa1.getWidth fa1.getHeight ResourceFormat.D32Float 1 1
                BindFlags.DepthStencil) := by
          apply hkeep2
          rw [executeFbo_of_no_depth fa1 hda]
          rfl
        refine ⟨post1, post2, sa, ctxa, fa1, hp, hno1, ?_, hfa, hda, hd1, ?_⟩
        · rw [runCalls_append, hrun0]
          simp [runCalls, happly, hruna]
        · rw [executeFbo_of_depth f2 _ hd1]
      · left
        have hd1 : f1.getDepthStencilTexture = none := by
          rw [hsame hex, hdepthb, hnone]
        refine ⟨hex, hd1, ?_⟩
        rw [executeFbo_of_no_depth f1 hd1]
        rfl
  · intro t
    obtain ⟨out, h1, h2, _, h4, _⟩ := setInput_depth_eq s fbo (some (Resource.texture t)) hfbo
    refine ⟨out, h1, (h4 t rfl).1, by rw [(h4 t rfl).2, hds], ?_⟩
    rw [h2]
    rfl

/-- The statement of C6 at the fresh pass and the calls `sampleCalls`, whose most recent
depth bind is null: the next `execute` clears colour and depth, and the depth target it
clears is the 1280x720 one it allocates, not the 640x480 host texture bound earlier. -/
theorem depth_clear_policy_witness :
    samplePass.mpFbo = some Fbo.create ∧
    samplePass.mpDsNoDepthWrite
      = { depthTest := true, depthWriteMask := false, stencilTest := false,
          depthFunc := DepthFunc.LessEqual } ∧
    lastDepthInput sampleCalls = some none ∧
    (∃ s1 ctx1 s2 fbo2 flags rest,
      runCalls (samplePass, []) sampleCalls = some (s1, ctx1) ∧
      s1.execute ctx1
        = some (s2, ctx1 ++ Command.clearFbo fbo2 s1.mClearColor 1 0 flags :: rest) ∧
      flags.color = true ∧ flags.depth = true ∧
      flags = FboAttachmentType.or FboAttachmentType.Color FboAttachmentType.Depth ∧
      s1.mpState.depthStencilState = none) ∧
    ((runCalls (samplePass, []) sampleCalls).bind (fun st => st.1.execute st.2)).map
        (fun st => st.1.mpFbo.bind Fbo.getDepthStencilTexture)
      = some (some (Texture.create2D 1280 720 ResourceFormat.D32Float 1 1
          BindFlags.DepthStencil)) ∧
    Texture.create2D 1280 720 ResourceFormat.D32Float 1 1 BindFlags.DepthStencil
      ≠ sampleDepth := by
  refine ⟨rfl, rfl, by decide, ?_, rfl, by decide⟩
  obtain ⟨_, _, _, _, _, s1, ctx1, _, s2, fbo2, flags, rest, _, _, _, _, _, h1, _, h2, _, h4,
      h5, _, h7⟩ :=
    (depth_clear_policy samplePass [] Fbo.create sampleCalls none rfl rfl (by decide)).1
  exact ⟨s1, ctx1, s2, fbo2, flags, rest, h1, h2, h4, h5.mpr rfl, (h7 rfl).1, (h7 rfl).2.1⟩

/-! ## Bind and query -/

/-- C11: on a pass with an FBO, `getOutput("color")` right after `setOutput("color", r)` and
`getInput("depth")` right after `setInput("depth", r)` return `r` cast to a texture: the
texture `t` itself when `r` is `t`, and the empty handle when `r` is null or a resource that
is not a texture, which for a non-texture differs from the resource bound. -/
theorem bind_query_round_trip (s : SceneRenderPass) (fbo : Fbo)
    (baseGet : String → Option Resource) (hfbo : s.mpFbo = some fbo) :
    (∀ r, (s.setOutput kColor r).pass.getOutput baseGet kColor
        = some ((dynamic_pointer_cast_Texture r).map Resource.texture)) ∧
    (∀ r, ∃ out, s.setInput kDepth r = some out ∧
      out.pass.getInput baseGet kDepth
        = some ((dynamic_pointer_cast_Texture r).map Resource.texture)) ∧
    (∀ t : Texture,
      (s.setOutput kColor (some (Resource.texture t))).pass.getOutput baseGet kColor
        = some (some (Resource.texture t)) ∧
      ∃ out, s.setInput kDepth (some (Resource.texture t)) = some out ∧
        out.pass.getInput baseGet kDepth = some (some (Resource.texture t))) ∧
    ((s.setOutput kColor none).pass.getOutput baseGet kColor = some none ∧
      ∃ out, s.setInput kDepth none = some out ∧
        out.pass.getInput baseGet kDepth = some none) ∧
    (∀ b : Buffer,
      (s.setOutput kColor (some (Resource.buffer b))).pass.getOutput baseGet kColor
        = some none ∧
      (s.setOutput kColor (some (Resource.buffer b))).pass.getOutput baseGet kColor
        ≠ some (some (Resource.buffer b)) ∧
      ∃ out, s.setInput kDepth (some (Resource.buffer b)) = some out ∧
        out.pass.getInput baseGet kDepth = some none ∧
        out.pass.getInput baseGet kDepth ≠ some (some (Resource.buffer b))) := by
  have hout : ∀ r, (s.setOutput kColor r).pass.getOutput baseGet kColor
      = some ((dynamic_pointer_cast_Texture r).map Resource.texture) := by
    intro r
    simp [SceneRenderPass.setOutput, SceneRenderPass.getOutput, hfbo, Fbo.getColorTexture,
      Fbo.attachColorTarget]
  have hin : ∀ r, ∃ out, s.setInput kDepth r = some out ∧
      out.pass.getInput baseGet kDepth
        = some ((dynamic_pointer_cast_Texture r).map Resource.texture) := by
    intro r
    cases hc : dynamic_pointer_cast_Texture r with
    | none =>
      refine ⟨_, by simp [SceneRenderPass.setInput, hfbo, hc]; rfl, ?_⟩
      simp [SceneRenderPass.getInput, Fbo.getDepthStencilTexture, Fbo.attachDepthStencilTarget]
    | some t =>
      refine ⟨_, by simp [SceneRenderPass.setInput, hfbo, hc]; rfl, ?_⟩
      simp [SceneRenderPass.getInput, Fbo.getDepthStencilTexture, Fbo.attachDepthStencilTarget]
  refine ⟨hout, hin, ?_, ?_, ?_⟩
  · intro t
    exact ⟨hout _, hin _⟩
  · exact ⟨hout _, hin _⟩
  · intro b
    obtain ⟨out, h1, h2⟩ := hin (some (Resource.buffer b))
    have h3 : (s.setOutput kColor (some (Resource.buffer b))).pass.getOutput baseGet kColor
        = some none := hout _
    refine ⟨h3, ?_, out, h1, h2, ?_⟩
    · rw [h3]
      simp
    · rw [h2]
      simp [dynamic_pointer_cast_Texture]

/-- The statement of C11 at the fresh pass: the colour and the depth texture bound are the
ones queried. -/
theorem bind_query_round_trip_witness :
    samplePass.mpFbo = some Fbo.create ∧
    (samplePass.setOutput kColor (some (Resource.texture sampleColor))).pass.getOutput
        (fun _ => none) kColor = some (some (Resource.texture sampleColor)) ∧
    ∃ out, samplePass.setInput kDepth (some (Resource.texture sampleDepth)) = some out ∧
      out.pass.getInput (fun _ => none) kDepth = some (some (Resource.texture sampleDepth)) := by
  have h := (bind_query_round_trip samplePass Fbo.create (fun _ => none) rfl).2.2.1
  exact ⟨rfl, (h sampleColor).1, (h sampleDepth).2⟩

end Falcor
